import Mathlib

/-!
Verification development for the OINIO soul system.

This file gives a shallow embedding of the system's core logic — the
deterministic oracle (`consultOracle`), SHA-256 / SHA-512 / PBKDF2 key
derivation, AES-256-GCM envelope encryption, the credential store
(`registerUser` / `authenticateUser` / `verifyPassword`) and the encrypted
record store (`loadSouls`) — together with theorems checking the
specification claims against this embedding.

Modelling conventions: byte strings are `List Nat` with each element a byte
value; machine words are `Nat` truncated with explicit `% 2^w`; randomness
(fresh IVs, fresh salts, fresh seeds) is passed as explicit parameters;
file-system state is passed as explicit values (`Option`/inductive state of
the file) and fallible operations return `Option`.
-/

namespace Oinio

/-- Truncation of a natural number to 32 bits. -/
def mod32 (n : Nat) : Nat := n % 4294967296

/-- Truncation of a natural number to 64 bits. -/
def mod64 (n : Nat) : Nat := n % 18446744073709551616

/-- Right rotation of a 32-bit word by `r` positions. -/
def rotr32 (r n : Nat) : Nat := mod32 ((n >>> r) ||| (n <<< (32 - r)))

/-- Right rotation of a 64-bit word by `r` positions. -/
def rotr64 (r n : Nat) : Nat := mod64 ((n >>> r) ||| (n <<< (64 - r)))

/-- Big-endian byte serialisation of `n` on `k` bytes (most significant first). -/
def toBytesBE : Nat → Nat → List Nat
  | 0, _ => []
  | k + 1, n => toBytesBE k (n >>> 8) ++ [n % 256]

/-- Big-endian interpretation of a byte list as a natural number. -/
def fromBytesBE (l : List Nat) : Nat := l.foldl (fun acc b => acc * 256 + b) 0

/-- Splitting of a byte list into chunks of `k` bytes; the first argument is
fuel (any bound at least the number of chunks, e.g. the list length). -/
def chunksBy (k : Nat) : Nat → List Nat → List (List Nat)
  | 0, _ => []
  | _, [] => []
  | fuel + 1, l => l.take k :: chunksBy k fuel (l.drop k)

/-- UTF-8 encoding of a single character (as Node's `Buffer.from(s, 'utf8')`
produces for well-formed strings). -/
def utf8Char (c : Char) : List Nat :=
  let n := c.toNat
  if n < 128 then [n]
  else if n < 2048 then [192 + n / 64, 128 + n % 64]
  else if n < 65536 then [224 + n / 4096, 128 + (n / 64) % 64, 128 + n % 64]
  else [240 + n / 262144, 128 + (n / 4096) % 64, 128 + (n / 64) % 64, 128 + n % 64]

/-- UTF-8 encoding of a string as a byte list. -/
def utf8Encode (s : String) : List Nat := (s.toList.map utf8Char).flatten

/-! ### SHA-256 and SHA-512

The round constants and initial hash values are computed from the
fractional parts of the square/cube roots of the first primes, exactly as
the FIPS 180-4 standard defines them, rather than transcribed. -/

/-- Integer binary search used for integer cube roots: largest `r` with
`r ^ 3 ≤ n`, maintained through the bracket `[lo, hi)`. -/
def natCbrtAux (n : Nat) : Nat → Nat → Nat → Nat
  | 0, lo, _ => lo
  | fuel + 1, lo, hi =>
    if hi ≤ lo + 1 then lo
    else
      let mid := (lo + hi) / 2
      if mid * mid * mid ≤ n then natCbrtAux n fuel mid hi else natCbrtAux n fuel lo mid

/-- Integer cube root. -/
def natCbrt (n : Nat) : Nat := natCbrtAux n 400 0 (n + 1)

/-- First 80 primes (SHA-256 uses the first 64, SHA-512 all 80). -/
def firstPrimes80 : List Nat :=
  [2, 3, 5, 7, 11, 13, 17, 19, 23, 29, 31, 37, 41, 43, 47, 53,
   59, 61, 67, 71, 73, 79, 83, 89, 97, 101, 103, 107, 109, 113, 127, 131,
   137, 139, 149, 151, 157, 163, 167, 173, 179, 181, 191, 193, 197, 199, 211, 223,
   227, 229, 233, 239, 241, 251, 257, 263, 269, 271, 277, 281, 283, 293, 307, 311,
   313, 317, 331, 337, 347, 349, 353, 359, 367, 373, 379, 383, 389, 397, 401, 409]

/-- SHA-256 round constants: 32 fractional bits of the cube roots of the
first 64 primes. -/
def K256 : List Nat := (firstPrimes80.take 64).map fun p => natCbrt (p <<< 96) % 4294967296

/-- SHA-512 round constants: 64 fractional bits of the cube roots of the
first 80 primes. -/
def K512 : List Nat := firstPrimes80.map fun p => natCbrt (p <<< 192) % 18446744073709551616

/-- Working state of the SHA-2 compression functions: eight hash words. -/
structure Hash8 where
  a : Nat
  b : Nat
  c : Nat
  d : Nat
  e : Nat
  f : Nat
  g : Nat
  h : Nat
deriving DecidableEq

/-- Hash8 from a list of eight words. -/
def listToHash8 (l : List Nat) : Hash8 :=
  ⟨l.getD 0 0, l.getD 1 0, l.getD 2 0, l.getD 3 0, l.getD 4 0, l.getD 5 0, l.getD 6 0, l.getD 7 0⟩

/-- Serialisation of the final state, `w` bytes per word, big-endian. -/
def hash8ToBytes (w : Nat) (st : Hash8) : List Nat :=
  toBytesBE w st.a ++ toBytesBE w st.b ++ toBytesBE w st.c ++ toBytesBE w st.d ++
  toBytesBE w st.e ++ toBytesBE w st.f ++ toBytesBE w st.g ++ toBytesBE w st.h

/-- Pointwise modular sum of two states. -/
def addHash8 (m : Nat → Nat) (x y : Hash8) : Hash8 :=
  ⟨m (x.a + y.a), m (x.b + y.b), m (x.c + y.c), m (x.d + y.d),
   m (x.e + y.e), m (x.f + y.f), m (x.g + y.g), m (x.h + y.h)⟩

/-- SHA-256 initial hash: 32 fractional bits of the square roots of the
first 8 primes. -/
def sha256Init : Hash8 :=
  listToHash8 ((firstPrimes80.take 8).map fun p => Nat.sqrt (p <<< 64) % 4294967296)

/-- SHA-512 initial hash: 64 fractional bits of the square roots of the
first 8 primes. -/
def sha512Init : Hash8 :=
  listToHash8 ((firstPrimes80.take 8).map fun p => Nat.sqrt (p <<< 128) % 18446744073709551616)

/-- Grouping of bytes into big-endian 32-bit words. -/
def bytesToWords32 : List Nat → List Nat
  | b0 :: b1 :: b2 :: b3 :: rest =>
    (((b0 * 256 + b1) * 256 + b2) * 256 + b3) :: bytesToWords32 rest
  | _ => []

/-- Grouping of bytes into big-endian 64-bit words. -/
def bytesToWords64 : List Nat → List Nat
  | b0 :: b1 :: b2 :: b3 :: b4 :: b5 :: b6 :: b7 :: rest =>
    fromBytesBE [b0, b1, b2, b3, b4, b5, b6, b7] :: bytesToWords64 rest
  | _ => []

def bigSigma256_0 (x : Nat) : Nat := rotr32 2 x ^^^ rotr32 13 x ^^^ rotr32 22 x
def bigSigma256_1 (x : Nat) : Nat := rotr32 6 x ^^^ rotr32 11 x ^^^ rotr32 25 x
def smallSigma256_0 (x : Nat) : Nat := rotr32 7 x ^^^ rotr32 18 x ^^^ (x >>> 3)
def smallSigma256_1 (x : Nat) : Nat := rotr32 17 x ^^^ rotr32 19 x ^^^ (x >>> 10)

def bigSigma512_0 (x : Nat) : Nat := rotr64 28 x ^^^ rotr64 34 x ^^^ rotr64 39 x
def bigSigma512_1 (x : Nat) : Nat := rotr64 14 x ^^^ rotr64 18 x ^^^ rotr64 41 x
def smallSigma512_0 (x : Nat) : Nat := rotr64 1 x ^^^ rotr64 8 x ^^^ (x >>> 7)
def smallSigma512_1 (x : Nat) : Nat := rotr64 19 x ^^^ rotr64 61 x ^^^ (x >>> 6)

/-- SHA-2 choice function (`width1s` is the all-ones word of the width). -/
def chF (width1s x y z : Nat) : Nat := (x &&& y) ^^^ ((x ^^^ width1s) &&& z)

/-- SHA-2 majority function. -/
def majF (x y z : Nat) : Nat := (x &&& y) ^^^ (x &&& z) ^^^ (y &&& z)

/-- Message-schedule extension; `acc` is the schedule so far, most recent
word first, and `k` counts the remaining words to produce. -/
def schedExtend (m : Nat → Nat) (s0 s1 : Nat → Nat) : Nat → List Nat → List Nat
  | 0, acc => acc
  | k + 1, acc =>
    let w := m (s1 (acc.getD 1 0) + acc.getD 6 0 + s0 (acc.getD 14 0) + acc.getD 15 0)
    schedExtend m s0 s1 k (w :: acc)

/-- One SHA-2 compression round; `kw` is the round constant paired with the
schedule word. -/
def sha2Round (m : Nat → Nat) (bs0 bs1 : Nat → Nat) (width1s : Nat)
    (st : Hash8) (kw : Nat × Nat) : Hash8 :=
  let t1 := m (st.h + bs1 st.e + chF width1s st.e st.f st.g + kw.1 + kw.2)
  let t2 := m (bs0 st.a + majF st.a st.b st.c)
  ⟨m (t1 + t2), st.a, st.b, st.c, m (st.d + t1), st.e, st.f, st.g⟩

/-- SHA-256 compression of a single 64-byte block. -/
def sha256Compress (st : Hash8) (block : List Nat) : Hash8 :=
  let ws := (schedExtend mod32 smallSigma256_0 smallSigma256_1 48
    (bytesToWords32 block).reverse).reverse
  addHash8 mod32 st ((K256.zip ws).foldl (sha2Round mod32 bigSigma256_0 bigSigma256_1 4294967295) st)

/-- SHA-512 compression of a single 128-byte block. -/
def sha512Compress (st : Hash8) (block : List Nat) : Hash8 :=
  let ws := (schedExtend mod64 smallSigma512_0 smallSigma512_1 64
    (bytesToWords64 block).reverse).reverse
  addHash8 mod64 st ((K512.zip ws).foldl
    (sha2Round mod64 bigSigma512_0 bigSigma512_1 18446744073709551615) st)

/-- Merkle-Damgard padding for a 64-byte block size with an 8-byte length field. -/
def shaPad64 (msg : List Nat) : List Nat :=
  msg ++ 128 :: List.replicate ((119 - msg.length % 64) % 64) 0 ++ toBytesBE 8 (msg.length * 8)

/-- Merkle-Damgard padding for a 128-byte block size with a 16-byte length field. -/
def shaPad128 (msg : List Nat) : List Nat :=
  msg ++ 128 :: List.replicate ((239 - msg.length % 128) % 128) 0 ++ toBytesBE 16 (msg.length * 8)

/-- SHA-256 digest (32 bytes) of a byte list. -/
def sha256 (msg : List Nat) : List Nat :=
  hash8ToBytes 4
    ((chunksBy 64 (shaPad64 msg).length (shaPad64 msg)).foldl sha256Compress sha256Init)

/-- SHA-512 digest (64 bytes) of a byte list. -/
def sha512 (msg : List Nat) : List Nat :=
  hash8ToBytes 8
    ((chunksBy 128 (shaPad128 msg).length (shaPad128 msg)).foldl sha512Compress sha512Init)

/-! ### Hex encoding and decoding -/

/-- Lowercase hex digits. -/
def hexDigits : List Char := "0123456789abcdef".toList

/-- Lowercase hex encoding of a byte list, as Node's
`Buffer.prototype.toString('hex')` produces: two hex characters per byte. -/
def bytesToHex (l : List Nat) : String :=
  String.mk (l.flatMap fun b => [hexDigits.getD (b / 16 % 16) '0', hexDigits.getD (b % 16) '0'])

/-- Numeric value of a hex character, `none` for a non-hex character. -/
def hexVal (c : Char) : Option Nat :=
  if 48 ≤ c.toNat ∧ c.toNat ≤ 57 then some (c.toNat - 48)
  else if 97 ≤ c.toNat ∧ c.toNat ≤ 102 then some (c.toNat - 87)
  else if 65 ≤ c.toNat ∧ c.toNat ≤ 70 then some (c.toNat - 55)
  else none

/-- Hex decoding of character pairs, as Node's `Buffer.from(s, 'hex')`:
decoding stops at the first invalid pair, and a trailing lone character is
ignored. -/
def hexPairsToBytes : List Char → List Nat
  | c1 :: c2 :: rest =>
    match hexVal c1, hexVal c2 with
    | some hi, some lo => (16 * hi + lo) :: hexPairsToBytes rest
    | _, _ => []
  | _ => []

/-- Byte list decoded from a hex string. -/
def hexToBytes (s : String) : List Nat := hexPairsToBytes s.toList

/-! ### The deterministic oracle

Embedded from `consultOracle` (oinio-system.js, `generateDeterministicReading`
in the shared module, inlined at lines 1196–1241 and in the forge bridge). -/

/-- Fixed 16-element pattern dictionary. -/
def PATTERNS : List String :=
  ["The Spiral", "The Mirror", "The Threshold", "The Void",
   "The Bloom", "The Anchor", "The Storm", "The Seed",
   "The River", "The Mountain", "The Web", "The Flame",
   "The Echo", "The Door", "The Root", "The Sky"]

/-- Fixed 16-element oracle message dictionary. -/
def MESSAGES : List String :=
  ["What once was hidden now seeks form.",
   "The pattern remembers itself through you.",
   "Resistance is the shape of the next becoming.",
   "You are the question and the answer.",
   "What you seek is seeking you.",
   "The chaos contains the blueprint.",
   "This moment is the initiation.",
   "You are already what you are becoming.",
   "The wound is where the light enters.",
   "Trust the spiral, not the straight line.",
   "What falls away was never yours.",
   "The void is full of potential.",
   "You are the bridge between worlds.",
   "The fear is the threshold.",
   "What you birth will birth you.",
   "The ending is also the beginning."]

/-- Opaque carrier for a JavaScript number attached by the external
enhancer (an IEEE-754 double carried as its 64-bit pattern; the modelled
code never computes with these values, it only stores them). -/
structure JsNumber where
  bits : Nat
deriving DecidableEq

/-- The zero JavaScript number. -/
def jsZero : JsNumber := ⟨0⟩

/-- An oracle reading. The first seven fields are the deterministic core
produced by `generateDeterministicReading`; the optional fields are only
ever attached by the quantum-forge enhancer. -/
structure Reading where
  mode : String
  resonance : Nat
  clarity : Nat
  flux : Nat
  emergence : Nat
  pattern : String
  message : String
  harmonyIndex : Option JsNumber := none
  quantumConfidence : Option JsNumber := none
  quantumTrend : Option String := none
  forgeRecommendations : Option (List String) := none
  quantumInsight : Option String := none
deriving DecidableEq

/-- Big-endian 32-bit read at byte offset `off`, as Node's
`Buffer.prototype.readUInt32BE`. -/
def readUInt32BE (l : List Nat) (off : Nat) : Nat := fromBytesBE ((l.drop off).take 4)

/-- SHA-256 digest of the oracle's combined input
`question + "|" + seed + "|" + String(epochNumber)` (UTF-8). -/
def oracleDigest (question seed : String) (epochNumber : Nat) : List Nat :=
  sha256 (utf8Encode (question ++ "|" ++ seed ++ "|" ++ Nat.repr epochNumber))

/-- Deterministic reading from question, seed and epoch number; embedded
from the inlined `generateDeterministicReading` / `consultOracle` body. -/
def generateDeterministicReading (question seed : String) (epochNumber : Nat) : Reading :=
  { mode := "deterministic"
    resonance := (oracleDigest question seed epochNumber).getD 0 0 % 100 + 1
    clarity := (oracleDigest question seed epochNumber).getD 1 0 % 100 + 1
    flux := (oracleDigest question seed epochNumber).getD 2 0 % 100 + 1
    emergence := (oracleDigest question seed epochNumber).getD 3 0 % 100 + 1
    pattern := PATTERNS.getD (readUInt32BE (oracleDigest question seed epochNumber) 4
      % PATTERNS.length) ""
    message := MESSAGES.getD (readUInt32BE (oracleDigest question seed epochNumber) 8
      % MESSAGES.length) "" }

/-- Deterministic oracle entry point (`consultOracle` delegates to
`generateDeterministicReading`). -/
def consultOracle (question seed : String) (epochNumber : Nat) : Reading :=
  generateDeterministicReading question seed epochNumber

/-! ### HMAC-SHA512 and PBKDF2 -/

/-- Pointwise XOR of two byte lists (truncating to the shorter). -/
def xorBytes (a b : List Nat) : List Nat := List.zipWith (fun x y => x ^^^ y) a b

/-- HMAC keyed with `key` over `msg`, instantiated with SHA-512
(block size 128 bytes). -/
def hmacSha512 (key msg : List Nat) : List Nat :=
  let kh := if 128 < key.length then sha512 key else key
  let k0 := kh ++ List.replicate (128 - kh.length) 0
  sha512 ((k0.map fun b => b ^^^ 92) ++ sha512 ((k0.map fun b => b ^^^ 54) ++ msg))

/-- PBKDF2 inner loop: `k` further iterations, current value `u`,
accumulated XOR `acc`. -/
def pbkdf2Iter (pw : List Nat) : Nat → List Nat → List Nat → List Nat
  | 0, _, acc => acc
  | k + 1, u, acc =>
    let u2 := hmacSha512 pw u
    pbkdf2Iter pw k u2 (xorBytes acc u2)

/-- PBKDF2 block `T_i`: XOR of `c` HMAC iterations, the first keyed on
`salt || INT(i)`. -/
def pbkdf2Block (pw salt : List Nat) (c i : Nat) : List Nat :=
  let u1 := hmacSha512 pw (salt ++ toBytesBE 4 i)
  pbkdf2Iter pw (c - 1) u1 u1

/-- PBKDF2-HMAC-SHA512 with `c` iterations and `dkLen` output bytes, as
Node's `crypto.pbkdf2Sync(password, salt, c, dkLen, 'sha512')`. -/
def pbkdf2Sha512 (pw salt : List Nat) (c dkLen : Nat) : List Nat :=
  (((List.range ((dkLen + 63) / 64)).map fun i => pbkdf2Block pw salt c (i + 1)).flatten).take dkLen

/-! ### Credential store (part_002: user authentication system) -/

/-- Key derivation by plain SHA-256 of the passphrase (`deriveKey`). -/
def deriveKey (passphrase : String) : List Nat := sha256 (utf8Encode passphrase)

/-- Fixed system key for the users database (`getUsersDbKey`): derived from
the constant identifier, not a secrecy boundary. -/
def getUsersDbKey : List Nat := deriveKey "oinio-users-db-v1"

/-- Password hashing (`hashPassword`). The source draws a fresh random
32-byte salt; randomness is passed here as the explicit `saltBytes`
parameter. Both the salt (as a hex string) and the password are fed to
PBKDF2-HMAC-SHA512 with 100000 iterations and a 64-byte digest; the result
is `(salt, hash)`, both hex strings. -/
def hashPassword (password : String) (saltBytes : List Nat) : String × String :=
  let salt := bytesToHex saltBytes
  let hash := bytesToHex (pbkdf2Sha512 (utf8Encode password) (utf8Encode salt) 100000 64)
  (salt, hash)

/-- Constant-time byte comparison, as Node's `crypto.timingSafeEqual` on
equal-length buffers: every byte pair is XOR-combined and the comparison
result is taken from the accumulated OR, with no early exit. -/
def timingSafeEqual (a b : List Nat) : Bool :=
  ((xorBytes a b).foldl (fun acc d => acc ||| d) 0) == 0

/-- Number of byte positions examined by `timingSafeEqual`: one per element
of the XOR stream, independent of the byte values. -/
def timingSafeEqualSteps (a b : List Nat) : Nat := (xorBytes a b).length

/-- Password verification (`verifyPassword`): recompute the PBKDF2 verifier
and compare with the stored hex verifier; a length mismatch fails, and
equal lengths are compared in constant time. -/
def verifyPassword (password salt hash : String) : Bool :=
  let computedHash := pbkdf2Sha512 (utf8Encode password) (utf8Encode salt) 100000 64
  let storedHash := hexToBytes hash
  if computedHash.length = storedHash.length then timingSafeEqual computedHash storedHash
  else false

/-- One stored credential record
(`{ salt, hash, encryptionSalt, created }`). -/
structure UserRecord where
  salt : String
  hash : String
  encryptionSalt : String
  created : String
deriving DecidableEq

/-- The users database: a username-keyed map, modelled as an association
list in insertion order (JavaScript object property order for the
non-numeric keys the system uses; only own properties are modelled, so
prototype-inherited keys of the JavaScript object are outside the model). -/
abbrev UsersDb := List (String × UserRecord)

/-- Outcome of `registerUser` / `authenticateUser`-style calls:
`{ success, error }` with an optional payload. -/
structure AuthResult where
  success : Bool
  error : Option String
  encryptionSalt : Option String
deriving DecidableEq

/-- The single generic failure value returned both for an unknown username
and for a wrong password (`'Invalid username or password'`). -/
def invalidCredentials : AuthResult :=
  { success := false, error := some "Invalid username or password", encryptionSalt := none }

/-- Own property names of `Object.prototype` in Node's V8. A property read
`usersDb[username]` on the JSON-parsed users object (or the fresh `{}`)
falls through to these when the key is not an own property, and each of
their values (eleven methods and the `__proto__` accessor) is truthy. All
twelve names lie in the 3–20-character `[A-Za-z0-9_-]` shape accepted by
`askUsername`. -/
def protoKeys : List String :=
  ["constructor", "__defineGetter__", "__defineSetter__", "hasOwnProperty",
   "__lookupGetter__", "__lookupSetter__", "isPrototypeOf", "propertyIsEnumerable",
   "toString", "valueOf", "__proto__", "toLocaleString"]

/-- Result of the JavaScript property read `usersDb[username]`: an own
property holding the stored credential record, an `Object.prototype`-
inherited value (truthy, but not a credential record — its `salt` and
`hash` properties are `undefined`), or `undefined`. -/
inductive JsLookup where
  | ownRecord (record : UserRecord)
  | inherited
  | undefinedVal
deriving DecidableEq

/-- The property read `usersDb[username]` on the parsed users object. -/
def jsGet (usersDb : UsersDb) (username : String) : JsLookup :=
  match usersDb.lookup username with
  | some record => JsLookup.ownRecord record
  | none =>
    if username ∈ protoKeys then JsLookup.inherited else JsLookup.undefinedVal

/-- Registration (`registerUser`). The load of the users database and the
success of the final write are outcomes of the file system, passed as the
explicit `loaded` and `writeOk` parameters; the two fresh random 32-byte
salts are the explicit `pwSaltBytes` and `encSaltBytes` parameters. The
uniqueness check is the JavaScript truthiness of `usersDb[username]`,
so it also fires on the `Object.prototype`-inherited property names. The
result pairs the reported outcome with the database contents handed to
`saveUsers` (encrypted under the fixed system key), when a save was
attempted. -/
def registerUser (username password : String) (loaded : Option UsersDb)
    (pwSaltBytes encSaltBytes : List Nat) (created : String) (writeOk : Bool) :
    AuthResult × Option UsersDb :=
  match loaded with
  | none =>
    ({ success := false, error := some "Failed to load users database", encryptionSalt := none },
     none)
  | some usersDb =>
    match jsGet usersDb username with
    | JsLookup.undefinedVal =>
      let sh := hashPassword password pwSaltBytes
      let encryptionSalt := bytesToHex encSaltBytes
      let db2 := usersDb ++ [(username,
        { salt := sh.1, hash := sh.2, encryptionSalt := encryptionSalt, created := created })]
      if writeOk then ({ success := true, error := none, encryptionSalt := none }, some db2)
      else ({ success := false, error := some "Failed to save user", encryptionSalt := none },
        some db2)
    | _ =>
      ({ success := false, error := some "Username already exists", encryptionSalt := none }, none)

/-- Outcome of `authenticateUser`: a returned result, or an uncaught
exception. The crash case arises when `usersDb[username]` yields an
`Object.prototype`-inherited value: the source then calls
`verifyPassword(password, user.salt, user.hash)` with both properties
`undefined`, and `crypto.pbkdf2Sync` throws `ERR_INVALID_ARG_TYPE`, which
no enclosing handler catches. -/
inductive AuthOutcome where
  | result (r : AuthResult)
  | crash
deriving DecidableEq

/-- Authentication (`authenticateUser`): load the users database, read
`usersDb[username]`, verify the password. An own record is verified (both
failure modes return the same `invalidCredentials` value, success returns
the user's encryption salt); an absent username returns the same
`invalidCredentials`; an `Object.prototype`-inherited hit crashes on the
`undefined` salt. -/
def authenticateUser (username password : String) (loaded : Option UsersDb) : AuthOutcome :=
  match loaded with
  | none =>
    AuthOutcome.result
      { success := false, error := some "Failed to load users database", encryptionSalt := none }
  | some usersDb =>
    match jsGet usersDb username with
    | JsLookup.undefinedVal => AuthOutcome.result invalidCredentials
    | JsLookup.inherited => AuthOutcome.crash
    | JsLookup.ownRecord user =>
      if verifyPassword password user.salt user.hash then
        AuthOutcome.result
          { success := true, error := none, encryptionSalt := some user.encryptionSalt }
      else AuthOutcome.result invalidCredentials

/-- Username shape accepted by the CLI prompt `askUsername`: 3–20
characters from `[A-Za-z0-9_-]` (the empty string aborts, other malformed
shapes re-prompt). -/
def isUsernameChar (c : Char) : Bool :=
  (97 ≤ c.toNat && c.toNat ≤ 122) || (65 ≤ c.toNat && c.toNat ≤ 90) ||
  (48 ≤ c.toNat && c.toNat ≤ 57) || c.toNat == 95 || c.toNat == 45

/-- Decision of `askUsername`'s validation: a username is accepted exactly
when it has 3–20 characters all from the allowed charset. -/
def validUsernameShape (u : String) : Bool :=
  3 ≤ u.length && u.length ≤ 20 && u.toList.all isUsernameChar

/-! ### AES-256-GCM

The source encrypts and decrypts with Node's `'aes-256-gcm'` cipher;
this section embeds that primitive concretely: the AES-256 block cipher
(FIPS 197, with the S-box computed from the GF(2^8) inverse and affine map
rather than transcribed) in Galois/Counter Mode (NIST SP 800-38D). -/

/-- Doubling in GF(2^8) modulo the AES polynomial (`xtime`). -/
def xtime (b : Nat) : Nat :=
  if 128 ≤ b % 256 then ((b % 256) <<< 1) ^^^ 283 else (b % 256) <<< 1

/-- Multiplication in GF(2^8): 8 shift-and-add steps. -/
def gf8MulAux : Nat → Nat → Nat → Nat → Nat
  | 0, _, _, acc => acc
  | k + 1, a, b, acc =>
    gf8MulAux k (xtime a) (b >>> 1) (if b % 2 = 1 then acc ^^^ a else acc)

def gf8Mul (a b : Nat) : Nat := gf8MulAux 8 (a % 256) (b % 256) 0

/-- Multiplicative inverse in GF(2^8) via `x ^ 254` (squaring chain);
maps 0 to 0. -/
def gf8Inv (x : Nat) : Nat :=
  let s1 := gf8Mul x x
  let s2 := gf8Mul s1 s1
  let s3 := gf8Mul s2 s2
  let s4 := gf8Mul s3 s3
  let s5 := gf8Mul s4 s4
  let s6 := gf8Mul s5 s5
  let s7 := gf8Mul s6 s6
  gf8Mul s1 (gf8Mul s2 (gf8Mul s3 (gf8Mul s4 (gf8Mul s5 (gf8Mul s6 s7)))))

/-- Cyclic left rotation of a byte. -/
def rotl8 (r b : Nat) : Nat := (((b % 256) <<< r) ||| ((b % 256) >>> (8 - r))) % 256

/-- The AES S-box: affine transform of the GF(2^8) inverse. -/
def sbox (b : Nat) : Nat :=
  let x := gf8Inv b
  x ^^^ rotl8 1 x ^^^ rotl8 2 x ^^^ rotl8 3 x ^^^ rotl8 4 x ^^^ 99

/-- An AES state / round key: 16 bytes in column-major order. -/
structure B16 where
  b0 : Nat
  b1 : Nat
  b2 : Nat
  b3 : Nat
  b4 : Nat
  b5 : Nat
  b6 : Nat
  b7 : Nat
  b8 : Nat
  b9 : Nat
  b10 : Nat
  b11 : Nat
  b12 : Nat
  b13 : Nat
  b14 : Nat
  b15 : Nat
deriving DecidableEq

def listToB16 (l : List Nat) : B16 :=
  ⟨l.getD 0 0, l.getD 1 0, l.getD 2 0, l.getD 3 0, l.getD 4 0, l.getD 5 0,
   l.getD 6 0, l.getD 7 0, l.getD 8 0, l.getD 9 0, l.getD 10 0, l.getD 11 0,
   l.getD 12 0, l.getD 13 0, l.getD 14 0, l.getD 15 0⟩

def b16ToList (s : B16) : List Nat :=
  [s.b0, s.b1, s.b2, s.b3, s.b4, s.b5, s.b6, s.b7,
   s.b8, s.b9, s.b10, s.b11, s.b12, s.b13, s.b14, s.b15]

/-- SubBytes. -/
def subBytesB (s : B16) : B16 :=
  ⟨sbox s.b0, sbox s.b1, sbox s.b2, sbox s.b3, sbox s.b4, sbox s.b5, sbox s.b6, sbox s.b7,
   sbox s.b8, sbox s.b9, sbox s.b10, sbox s.b11, sbox s.b12, sbox s.b13, sbox s.b14, sbox s.b15⟩

/-- ShiftRows on the column-major byte order. -/
def shiftRowsB (s : B16) : B16 :=
  ⟨s.b0, s.b5, s.b10, s.b15, s.b4, s.b9, s.b14, s.b3,
   s.b8, s.b13, s.b2, s.b7, s.b12, s.b1, s.b6, s.b11⟩

/-- MixColumns on one column. -/
def mixCol (a b c d : Nat) : Nat × Nat × Nat × Nat :=
  (xtime a ^^^ (xtime b ^^^ b) ^^^ c ^^^ d,
   a ^^^ xtime b ^^^ (xtime c ^^^ c) ^^^ d,
   a ^^^ b ^^^ xtime c ^^^ (xtime d ^^^ d),
   (xtime a ^^^ a) ^^^ b ^^^ c ^^^ xtime d)

/-- MixColumns. -/
def mixColumnsB (s : B16) : B16 :=
  let c0 := mixCol s.b0 s.b1 s.b2 s.b3
  let c1 := mixCol s.b4 s.b5 s.b6 s.b7
  let c2 := mixCol s.b8 s.b9 s.b10 s.b11
  let c3 := mixCol s.b12 s.b13 s.b14 s.b15
  ⟨c0.1, c0.2.1, c0.2.2.1, c0.2.2.2, c1.1, c1.2.1, c1.2.2.1, c1.2.2.2,
   c2.1, c2.2.1, c2.2.2.1, c2.2.2.2, c3.1, c3.2.1, c3.2.2.1, c3.2.2.2⟩

/-- AddRoundKey. -/
def arkB (s k : B16) : B16 :=
  ⟨s.b0 ^^^ k.b0, s.b1 ^^^ k.b1, s.b2 ^^^ k.b2, s.b3 ^^^ k.b3,
   s.b4 ^^^ k.b4, s.b5 ^^^ k.b5, s.b6 ^^^ k.b6, s.b7 ^^^ k.b7,
   s.b8 ^^^ k.b8, s.b9 ^^^ k.b9, s.b10 ^^^ k.b10, s.b11 ^^^ k.b11,
   s.b12 ^^^ k.b12, s.b13 ^^^ k.b13, s.b14 ^^^ k.b14, s.b15 ^^^ k.b15⟩

/-- Word rotation and S-box application for the key schedule. -/
def rotWord (w : Nat) : Nat := mod32 ((w <<< 8) ||| (w >>> 24))

def subWord (w : Nat) : Nat :=
  sbox (w >>> 24) <<< 24 ||| sbox ((w >>> 16) % 256) <<< 16 |||
  sbox ((w >>> 8) % 256) <<< 8 ||| sbox (w % 256)

/-- AES round constants for the key schedule (index starts at 1). -/
def rconVal (i : Nat) : Nat := [1, 2, 4, 8, 16, 32, 64, 128].getD (i - 1) 0

/-- AES-256 key-schedule word expansion; `acc` is the words so far in
reverse order, `k` the number of further words to produce. -/
def expandWords : Nat → List Nat → List Nat
  | 0, acc => acc
  | k + 1, acc =>
    let i := acc.length
    let prev := acc.getD 0 0
    let w8 := acc.getD 7 0
    let temp :=
      if i % 8 = 0 then subWord (rotWord prev) ^^^ (rconVal (i / 8) <<< 24)
      else if i % 8 = 4 then subWord prev
      else prev
    expandWords k ((w8 ^^^ temp) :: acc)

/-- Bytes of four consecutive schedule words as one round key. -/
def wordsToB16 (w0 w1 w2 w3 : Nat) : B16 :=
  listToB16 (toBytesBE 4 w0 ++ toBytesBE 4 w1 ++ toBytesBE 4 w2 ++ toBytesBE 4 w3)

/-- Grouping of the 60 schedule words into 15 round keys. -/
def wordsToRoundKeys : List Nat → List B16
  | w0 :: w1 :: w2 :: w3 :: rest => wordsToB16 w0 w1 w2 w3 :: wordsToRoundKeys rest
  | _ => []

/-- AES-256 round keys from a 32-byte key. -/
def roundKeys (key : List Nat) : List B16 :=
  wordsToRoundKeys (expandWords 52 (bytesToWords32 key).reverse).reverse

/-- The middle and final AES rounds (the final round key is applied
without MixColumns). -/
def aesRounds : List B16 → B16 → B16
  | [], st => st
  | [rLast], st => arkB (shiftRowsB (subBytesB st)) rLast
  | r :: rest, st => aesRounds rest (arkB (mixColumnsB (shiftRowsB (subBytesB st))) r)

/-- AES block encryption given the expanded round keys. -/
def aesEncryptB (rks : List B16) (blk : B16) : B16 :=
  match rks with
  | [] => blk
  | r0 :: rest => aesRounds rest (arkB blk r0)

/-- AES block encryption on byte lists. -/
def aesEncryptBytes (rks : List B16) (block : List Nat) : List Nat :=
  b16ToList (aesEncryptB rks (listToB16 block))

/-- One step of the GF(2^128) multiplication: `k + 1` is the remaining bit
count, so bit `k` of `x` (numbering the polynomial coefficient `x^(127-k)`
as GCM does) is consumed. -/
def gf128MulAux : Nat → Nat → Nat → Nat → Nat
  | 0, _, z, _ => z
  | k + 1, x, z, v =>
    let z2 := if x.testBit k then z ^^^ v else z
    let v2 := if v.testBit 0 then (v >>> 1) ^^^ 0xE1000000000000000000000000000000 else v >>> 1
    gf128MulAux k x z2 v2

/-- Multiplication in GCM's GF(2^128) on 128-bit block values. -/
def gf128Mul (x y : Nat) : Nat := gf128MulAux 128 x 0 y

/-- GHASH over a list of 128-bit blocks with hash subkey `h`. -/
def ghash (h : Nat) (blocks : List Nat) : Nat :=
  blocks.foldl (fun y x => gf128Mul (y ^^^ x) h) 0

/-- Zero-padding of a byte list to a multiple of 16 bytes. -/
def padTo16 (l : List Nat) : List Nat :=
  l ++ List.replicate ((16 - l.length % 16) % 16) 0

/-- Byte list as a list of 128-bit block values. -/
def bytesToBlocks (l : List Nat) : List Nat :=
  (chunksBy 16 l.length l).map fromBytesBE

/-- The GCM pre-counter block `J0`: `IV || 0^31 || 1` for a 12-byte IV,
otherwise `GHASH(IV || pad || [len(IV)]_128)`. -/
def gcmJ0 (h : Nat) (iv : List Nat) : List Nat :=
  if iv.length = 12 then iv ++ [0, 0, 0, 1]
  else toBytesBE 16 (ghash h (bytesToBlocks (padTo16 iv) ++ [iv.length * 8]))

/-- Counter block number `i` after `J0` (32-bit wrap-around increment of
the last four bytes). -/
def ctrBlock (j0 : List Nat) (i : Nat) : List Nat :=
  j0.take 12 ++ toBytesBE 4 ((fromBytesBE (j0.drop 12) + i) % 4294967296)

/-- CTR keystream of `n` blocks starting at counter `J0 + 1`. -/
def keyStream (rks : List B16) (j0 : List Nat) (n : Nat) : List Nat :=
  ((List.range n).map fun i => aesEncryptBytes rks (ctrBlock j0 (i + 1))).flatten

/-- CTR encryption/decryption: XOR of the data with the keystream. -/
def gcmCtr (rks : List B16) (j0 data : List Nat) : List Nat :=
  xorBytes data (keyStream rks j0 ((data.length + 15) / 16))

/-- The GCM authentication tag over ciphertext `ct` (no associated data):
`GHASH(C || pad || [0]_64 || [len(C)]_64) XOR E(K, J0)`. -/
def gcmTag (rks : List B16) (h : Nat) (j0 ct : List Nat) : List Nat :=
  xorBytes (toBytesBE 16 (ghash h (bytesToBlocks (padTo16 ct) ++ [ct.length * 8])))
    (aesEncryptBytes rks j0)

/-- An encryption envelope `{ iv, authTag, encrypted }`. -/
structure Envelope where
  iv : List Nat
  authTag : List Nat
  encrypted : List Nat
deriving DecidableEq

/-- The GCM hash subkey `H = E(K, 0^128)` as a 128-bit value. -/
def gcmHashKey (key : List Nat) : Nat :=
  fromBytesBE (aesEncryptBytes (roundKeys key) (List.replicate 16 0))

/-- Encryption (`encrypt`): AES-256-GCM over the plaintext bytes (the
source UTF-8-encodes its string argument first). The fresh random 16-byte
IV drawn by `crypto.randomBytes(16)` is the explicit `iv` parameter. -/
def encrypt (plaintext key iv : List Nat) : Envelope :=
  { iv := iv
    authTag := gcmTag (roundKeys key) (gcmHashKey key) (gcmJ0 (gcmHashKey key) iv)
      (gcmCtr (roundKeys key) (gcmJ0 (gcmHashKey key) iv) plaintext)
    encrypted := gcmCtr (roundKeys key) (gcmJ0 (gcmHashKey key) iv) plaintext }

/-- Decryption (`decrypt`): recompute the GCM tag over the ciphertext and
release the plaintext only on a full tag match; every failure — wrong key
size, malformed IV or tag, tag mismatch from a wrong key or tampered data —
yields `none` (the source's `try/catch` returns `null`), never a partial
plaintext. -/
def decrypt (iv authTag encrypted key : List Nat) : Option (List Nat) :=
  if key.length = 32 ∧ iv ≠ [] ∧ authTag.length = 16 then
    if gcmTag (roundKeys key) (gcmHashKey key) (gcmJ0 (gcmHashKey key) iv) encrypted
        = authTag then
      some (gcmCtr (roundKeys key) (gcmJ0 (gcmHashKey key) iv) encrypted)
    else none
  else none

/-! ### Persistence layer (`loadSouls` / `loadUsers`)

The on-disk file is modelled by its observable parse outcome: absent,
present but not a JSON object, or a JSON object whose `iv` / `authTag` /
`data` properties each are absent, a non-string JSON value, or a string.
The checks mirror the validation block of `loadSouls` and `loadUsers`:
`JSON.parse` failure and the not-an-object case fail, a falsy or
non-string field fails, and only then is the envelope decrypted. -/

/-- A JSON value found at a bundle property, with the granularity the
validation needs: a string, or some non-string JSON value. -/
inductive JsonLite where
  | jstr (s : String)
  | jnonstr
deriving DecidableEq

/-- The parsed persisted bundle: the three envelope properties, each
possibly absent. -/
structure RawBundle where
  iv : Option JsonLite
  authTag : Option JsonLite
  data : Option JsonLite
deriving DecidableEq

/-- State of the store file on disk. -/
inductive StoreFile where
  | absent
  | unparsable
  | bundle (b : RawBundle)
deriving DecidableEq

/-- Field acceptance of the validation block: `!bundle.iv` rejects absent
and falsy (empty-string) values, `typeof ≠ 'string'` rejects non-strings. -/
def strField : Option JsonLite → Option String
  | some (JsonLite.jstr s) => if s.isEmpty then none else some s
  | _ => none

/-- Structural validity of a bundle: all three fields accepted. -/
def bundleValid (b : RawBundle) : Bool :=
  (strField b.iv).isSome && (strField b.authTag).isSome && (strField b.data).isSome

/-- Plaintext serialisation of the empty registry (`JSON.stringify({})`),
which `loadSouls` effectively returns for an absent file. -/
def emptyRegistryBytes : List Nat := utf8Encode "\x7b\x7d"

/-- Record-store load (`loadSouls`): an absent file is a fresh empty
registry; a structurally invalid bundle or a failed decryption is the
hard failure `none`. A successful load carries the decrypted registry
serialisation (the subsequent `JSON.parse` of the authenticated plaintext
is the identity-level decode step and is not re-modelled). -/
def loadSouls (file : StoreFile) (key : List Nat) : Option (List Nat) :=
  match file with
  | StoreFile.absent => some emptyRegistryBytes
  | StoreFile.unparsable => none
  | StoreFile.bundle b =>
    match strField b.iv, strField b.authTag, strField b.data with
    | some iv, some authTag, some data =>
      decrypt (hexToBytes iv) (hexToBytes authTag) (hexToBytes data) key
    | _, _, _ => none

/-- Users-database load (`loadUsers`): the same logic with the fixed
system key. -/
def loadUsers (file : StoreFile) : Option (List Nat) :=
  loadSouls file getUsersDbKey

/-! ### Soul architecture (`createSoul`, epoch append, lineage export) -/

/-- One epoch entry `{ number, question, timestamp, reading }`. -/
structure Epoch where
  number : Nat
  question : String
  timestamp : String
  reading : Reading
deriving DecidableEq

/-- A soul `{ name, seed, created, lastEpoch, epochs }`. -/
structure Soul where
  name : String
  seed : String
  created : String
  lastEpoch : Option String
  epochs : List Epoch
deriving DecidableEq

/-- Soul creation (`createSoul`): the fresh random 32 bytes drawn by
`crypto.randomBytes(32)` are the explicit `seedBytes` parameter and are
stored hex-encoded; the epoch list starts empty. -/
def createSoul (name : String) (seedBytes : List Nat) (created : String) : Soul :=
  { name := name, seed := bytesToHex seedBytes, created := created,
    lastEpoch := none, epochs := [] }

/-- The new-epoch step of `runSoulMenu` (case `'1'`): the epoch number is
`epochs.length + 1`, the entry is appended, and `lastEpoch` becomes the
new entry's timestamp. -/
def newEpoch (soul : Soul) (question timestamp : String) (reading : Reading) : Soul :=
  let epochNumber := soul.epochs.length + 1
  { soul with
    epochs := soul.epochs ++
      [{ number := epochNumber, question := question, timestamp := timestamp,
         reading := reading }],
    lastEpoch := some timestamp }

/-- Folding an interaction log (question, timestamp, reading triples) into
a soul through `newEpoch`. -/
def runEpochs (soul : Soul) (entries : List (String × String × Reading)) : Soul :=
  entries.foldl (fun s e => newEpoch s e.1 e.2.1 e.2.2) soul

/-- Seed-hash column of the lineage CSV (`exportLineageToCSV`): the first
8 hex characters of the SHA-256 of the stored seed string (hashed as its
UTF-8 text, not as the decoded raw bytes). -/
def lineageSeedHash (soul : Soul) : String :=
  (bytesToHex (sha256 (utf8Encode soul.seed))).take 8

/-! ### Quantum forge bridge (`oinio-forge-bridge.js`) -/

/-- Parsed output of the external enhancer process (absent fields are the
JavaScript `undefined`). -/
structure ForgeResult where
  harmonyIndex : Option JsNumber
  confidence : Option JsNumber
  trend : Option String
  recommendations : Option (List String)
  aiInsight : Option String
deriving DecidableEq

/-- The merge step of the bridge's `consultQuantumOracle`: if a forge
result with a `harmony_index` arrived, the supplementary fields are
attached (with the source's falsy-coalescing defaults) and the mode is
relabelled; the six core reading fields are never written. -/
def enhanceReading (reading : Reading) (forgeResult : Option ForgeResult) : Reading :=
  match forgeResult with
  | none => reading
  | some fr =>
    match fr.harmonyIndex with
    | none => reading
    | some hi =>
      { reading with
        mode := "quantum-enhanced"
        harmonyIndex := some hi
        quantumConfidence := some (fr.confidence.getD jsZero)
        quantumTrend := some (fr.trend.getD "stable")
        forgeRecommendations := some (fr.recommendations.getD [])
        quantumInsight :=
          match fr.aiInsight with
          | some s => if s.isEmpty then reading.quantumInsight else some s
          | none => reading.quantumInsight }

/-- The bridge's `consultQuantumOracle`: the deterministic reading is
computed first; the enhancer outcome (`none` when the forge is absent,
exits nonzero, emits unparsable output, or times out) is then merged
additively. -/
def bridgeConsultQuantumOracle (question seed : String) (epochNumber : Nat)
    (forgeResult : Option ForgeResult) : Reading :=
  enhanceReading (generateDeterministicReading question seed epochNumber) forgeResult

/-- The system-level `consultQuantumOracle`: the deterministic reading is
computed first; only when quantum mode is requested, the bridge is loaded
and the forge was probed available is the bridge consulted, and a bridge
exception (`bridgeOutcome = none`) falls back to the deterministic
reading. -/
def consultQuantumOracle (question seed : String) (epochNumber : Nat)
    (useQuantum bridgeLoaded quantumAvailable : Bool)
    (bridgeOutcome : Option Reading) : Reading :=
  if useQuantum && bridgeLoaded && quantumAvailable then
    match bridgeOutcome with
    | some enhanced => enhanced
    | none => generateDeterministicReading question seed epochNumber
  else generateDeterministicReading question seed epochNumber

/-! ### Tampering model and concrete sample values -/

/-- Flip of the single bit `i` of a byte string (bit `i % 8` of byte
`i / 8`), used to state tamper detection. -/
def flipBit (l : List Nat) (i : Nat) : List Nat :=
  l.set (i / 8) (l.getD (i / 8) 0 ^^^ (1 <<< (i % 8)))

/-- Concrete credential record used by the witness theorems; its stored
verifier is deliberately not a valid PBKDF2 output, so password
verification against it fails by the length guard. -/
def sampleRecord : UserRecord :=
  { salt := "73616c74", hash := "00", encryptionSalt := "656e63", created := "t0" }

/-- Concrete one-user database for the witness theorems. -/
def sampleDb : UsersDb := [("alice", sampleRecord)]

/-- Concrete reading value for the witness theorems. -/
def sampleReading : Reading :=
  { mode := "deterministic", resonance := 1, clarity := 2, flux := 3, emergence := 4,
    pattern := "The Spiral", message := "The ending is also the beginning." }

/-! ### Basic lemmas about the embedding -/

theorem toBytesBE_length (k : Nat) : ∀ n : Nat, (toBytesBE k n).length = k := by
  induction k with
  | zero => intro n; rfl
  | succ k ih => intro n; simp [toBytesBE, ih]

theorem hash8ToBytes_length (w : Nat) (st : Hash8) : (hash8ToBytes w st).length = 8 * w := by
  simp [hash8ToBytes, toBytesBE_length]; omega

theorem sha256_length (msg : List Nat) : (sha256 msg).length = 32 := by
  simp [sha256, hash8ToBytes_length]

theorem sha512_length (msg : List Nat) : (sha512 msg).length = 64 := by
  simp [sha512, hash8ToBytes_length]

theorem bytesToHex_length (l : List Nat) : (bytesToHex l).length = 2 * l.length := by
  induction l with
  | nil => rfl
  | cons b rest ih =>
    simp only [bytesToHex, String.length_mk, List.flatMap_cons] at *
    simp only [List.length_append, List.length_cons, List.length_nil] at *
    omega

theorem xorBytes_length (a b : List Nat) : (xorBytes a b).length = min a.length b.length := by
  simp [xorBytes]

theorem hmacSha512_length (key msg : List Nat) : (hmacSha512 key msg).length = 64 := by
  simp [hmacSha512, sha512_length]

theorem pbkdf2Iter_length (pw : List Nat) (k : Nat) :
    ∀ u acc : List Nat, acc.length = 64 → (pbkdf2Iter pw k u acc).length = 64 := by
  induction k with
  | zero => intro u acc h; simpa [pbkdf2Iter] using h
  | succ k ih =>
    intro u acc h
    simp only [pbkdf2Iter]
    exact ih _ _ (by simp [xorBytes_length, hmacSha512_length, h])

theorem pbkdf2Sha512_length_64 (pw salt : List Nat) (c : Nat) :
    (pbkdf2Sha512 pw salt c 64).length = 64 := by
  have hb : (pbkdf2Block pw salt c 1).length = 64 :=
    pbkdf2Iter_length pw (c - 1) _ _ (hmacSha512_length _ _)
  simp [pbkdf2Sha512, List.range_succ, hb]

theorem b16ToList_length (s : B16) : (b16ToList s).length = 16 := rfl

theorem aesEncryptBytes_length (rks : List B16) (block : List Nat) :
    (aesEncryptBytes rks block).length = 16 := rfl

theorem mod100_bounds (b : Nat) : 1 ≤ b % 100 + 1 ∧ b % 100 + 1 ≤ 100 := by
  have h : b % 100 < 100 := Nat.mod_lt b (by norm_num)
  omega

/-! ### Claim theorems -/

/-- C1: `generateReading` (`consultOracle`) concatenates the input, the
textual seed and the sequence number into one buffer, hashes it with
SHA-256 and extracts four bounded fields `(digestByte[i] mod 100) + 1` for
`i ∈ {0, 1, 2, 3}` — each therefore in `[1, 100]` — together with a
pattern selected by `uint32BigEndian(digest[4..8)) mod 16` from the fixed
16-element pattern list and a message selected by
`uint32BigEndian(digest[8..12)) mod 16` from the fixed 16-element message
list; the function is pure and identical on identical inputs. -/
theorem claim1_generateReading_spec (question seed : String) (n : Nat) :
    oracleDigest question seed n
        = sha256 (utf8Encode (question ++ "|" ++ seed ++ "|" ++ Nat.repr n))
    ∧ (consultOracle question seed n).resonance
        = (oracleDigest question seed n).getD 0 0 % 100 + 1
    ∧ (consultOracle question seed n).clarity
        = (oracleDigest question seed n).getD 1 0 % 100 + 1
    ∧ (consultOracle question seed n).flux
        = (oracleDigest question seed n).getD 2 0 % 100 + 1
    ∧ (consultOracle question seed n).emergence
        = (oracleDigest question seed n).getD 3 0 % 100 + 1
    ∧ (1 ≤ (consultOracle question seed n).resonance
        ∧ (consultOracle question seed n).resonance ≤ 100)
    ∧ (1 ≤ (consultOracle question seed n).clarity
        ∧ (consultOracle question seed n).clarity ≤ 100)
    ∧ (1 ≤ (consultOracle question seed n).flux
        ∧ (consultOracle question seed n).flux ≤ 100)
    ∧ (1 ≤ (consultOracle question seed n).emergence
        ∧ (consultOracle question seed n).emergence ≤ 100)
    ∧ PATTERNS.length = 16
    ∧ MESSAGES.length = 16
    ∧ (consultOracle question seed n).pattern
        = PATTERNS.getD (readUInt32BE (oracleDigest question seed n) 4 % 16) ""
    ∧ (consultOracle question seed n).message
        = MESSAGES.getD (readUInt32BE (oracleDigest question seed n) 8 % 16) ""
    ∧ consultOracle question seed n = generateDeterministicReading question seed n := by
  refine ⟨rfl, ?_, ?_, ?_, ?_, ?_, ?_, ?_, ?_, rfl, rfl, ?_, ?_, rfl⟩ <;>
    simp only [consultOracle, generateDeterministicReading] <;>
    first
      | exact mod100_bounds _
      | rfl

theorem hexDigits_getD_mem (i : Nat) (h : i < 16) : hexDigits.getD i '0' ∈ hexDigits := by
  have hl : hexDigits.length = 16 := rfl
  rw [List.getD_eq_getElem hexDigits '0' (by omega)]
  exact List.getElem_mem _

theorem bytesToHex_chars (l : List Nat) : ∀ c ∈ (bytesToHex l).toList, c ∈ hexDigits := by
  intro c hc
  have he : (bytesToHex l).toList
      = (l.map fun b => [hexDigits.getD (b / 16 % 16) '0', hexDigits.getD (b % 16) '0']).flatten :=
    rfl
  rw [he, List.mem_flatten] at hc
  obtain ⟨xs, hxs, hcx⟩ := hc
  rw [List.mem_map] at hxs
  obtain ⟨b, _, rfl⟩ := hxs
  simp only [List.mem_cons, List.not_mem_nil, or_false] at hcx
  rcases hcx with h | h <;> subst h
  · exact hexDigits_getD_mem _ (Nat.mod_lt _ (by norm_num))
  · exact hexDigits_getD_mem _ (Nat.mod_lt _ (by norm_num))

theorem newEpoch_numbers (soul : Soul) (q ts : String) (r : Reading) (k : Nat)
    (h : soul.epochs.map Epoch.number = List.range' 1 k) :
    (newEpoch soul q ts r).epochs.map Epoch.number = List.range' 1 (k + 1) := by
  have hlen : soul.epochs.length = k := by
    have hh := congrArg List.length h
    simpa using hh
  have hr := @List.range'_concat 1 1 k
  simp only [one_mul] at hr
  simp only [newEpoch, List.map_append, h, List.map_cons, List.map_nil, hlen, hr,
    Nat.add_comm 1 k]

theorem runEpochs_numbers (entries : List (String × String × Reading)) :
    ∀ (soul : Soul) (k : Nat), soul.epochs.map Epoch.number = List.range' 1 k →
      (runEpochs soul entries).epochs.map Epoch.number = List.range' 1 (k + entries.length) := by
  induction entries with
  | nil => intro soul k h; simpa [runEpochs] using h
  | cons e rest ih =>
    intro soul k h
    have step := newEpoch_numbers soul e.1 e.2.1 e.2.2 k h
    have hrec := ih (newEpoch soul e.1 e.2.1 e.2.2) (k + 1) step
    have harith : k + 1 + rest.length = k + (rest.length + 1) := by omega
    simpa [runEpochs, harith] using hrec

/-- C8: appending N events to a fresh entity yields `sequenceNumber` values
exactly 1..N in order; each append assigns `sequenceNumber = events.length + 1`
at append time, and the invariant that the i-th event carries sequence
number i is preserved by every append. -/
theorem claim8_sequence_numbers :
    (∀ (name created : String) (seedBytes : List Nat)
        (entries : List (String × String × Reading)),
      (runEpochs (createSoul name seedBytes created) entries).epochs.map Epoch.number
        = List.range' 1 entries.length)
    ∧ (∀ (soul : Soul) (q ts : String) (r : Reading) (k : Nat),
        soul.epochs.map Epoch.number = List.range' 1 k →
        (newEpoch soul q ts r).epochs.map Epoch.number = List.range' 1 (k + 1))
    ∧ (∀ (soul : Soul) (q ts : String) (r : Reading),
        ((newEpoch soul q ts r).epochs.getLast?).map Epoch.number
          = some (soul.epochs.length + 1)) := by
  refine ⟨?_, newEpoch_numbers, ?_⟩
  · intro name created seedBytes entries
    have h := runEpochs_numbers entries (createSoul name seedBytes created) 0 rfl
    simpa using h
  · intro soul q ts r
    simp [newEpoch]

/-- C9: enhancement is strictly additive — the enhancer-augmented
consultation has the same resonance, clarity, flux, emergence, pattern and
message as the deterministic reading computed first (the enhancer result
only attaches the supplementary fields), and when the enhancer is absent,
fails or times out (`none` outcome, or quantum mode off/unavailable) the
returned reading equals the deterministic reading. -/
theorem claim9_enhancement_additive :
    (∀ (q s : String) (n : Nat) (fr : Option ForgeResult),
      (bridgeConsultQuantumOracle q s n fr).resonance
          = (generateDeterministicReading q s n).resonance
      ∧ (bridgeConsultQuantumOracle q s n fr).clarity
          = (generateDeterministicReading q s n).clarity
      ∧ (bridgeConsultQuantumOracle q s n fr).flux
          = (generateDeterministicReading q s n).flux
      ∧ (bridgeConsultQuantumOracle q s n fr).emergence
          = (generateDeterministicReading q s n).emergence
      ∧ (bridgeConsultQuantumOracle q s n fr).pattern
          = (generateDeterministicReading q s n).pattern
      ∧ (bridgeConsultQuantumOracle q s n fr).message
          = (generateDeterministicReading q s n).message)
    ∧ (∀ (q s : String) (n : Nat),
        bridgeConsultQuantumOracle q s n none = generateDeterministicReading q s n)
    ∧ (∀ (q s : String) (n : Nat) (uq bl qa : Bool) (bo : Option Reading),
        (uq && bl && qa) = false →
        consultQuantumOracle q s n uq bl qa bo = generateDeterministicReading q s n)
    ∧ (∀ (q s : String) (n : Nat) (uq bl qa : Bool),
        consultQuantumOracle q s n uq bl qa none = generateDeterministicReading q s n) := by
  refine ⟨?_, ?_, ?_, ?_⟩
  · intro q s n fr
    cases fr with
    | none => exact ⟨rfl, rfl, rfl, rfl, rfl, rfl⟩
    | some f =>
      cases h : f.harmonyIndex with
      | none => simp [bridgeConsultQuantumOracle, enhanceReading, h]
      | some hi => simp [bridgeConsultQuantumOracle, enhanceReading, h]
  · intro q s n; rfl
  · intro q s n uq bl qa bo h
    simp [consultQuantumOracle, h]
  · intro q s n uq bl qa
    cases h : (uq && bl && qa) <;> simp [consultQuantumOracle, h]

/-- C10: an entity's seed is stored as the 64-character lowercase
hexadecimal encoding of its 32 random bytes, and it is this hex string —
not the raw bytes — that is interpolated into the oracle's hash input
`question|seed|sequenceNumber` and that is hashed (SHA-256, first 8 hex
characters) to produce the CSV seed hash. -/
theorem claim10_seed_hex_representation (name created q : String) (n : Nat)
    (seedBytes : List Nat) (hlen : seedBytes.length = 32) :
    (createSoul name seedBytes created).seed = bytesToHex seedBytes
    ∧ (createSoul name seedBytes created).seed.length = 64
    ∧ (∀ c ∈ (createSoul name seedBytes created).seed.toList, c ∈ hexDigits)
    ∧ consultOracle q (createSoul name seedBytes created).seed n
        = generateDeterministicReading q (bytesToHex seedBytes) n
    ∧ oracleDigest q (bytesToHex seedBytes) n
        = sha256 (utf8Encode (q ++ "|" ++ bytesToHex seedBytes ++ "|" ++ Nat.repr n))
    ∧ lineageSeedHash (createSoul name seedBytes created)
        = (bytesToHex (sha256 (utf8Encode (bytesToHex seedBytes)))).take 8 := by
  refine ⟨rfl, ?_, ?_, rfl, rfl, rfl⟩
  · show (bytesToHex seedBytes).length = 64
    rw [bytesToHex_length, hlen]
  · exact bytesToHex_chars seedBytes

theorem nat_or_eq_zero (a b : Nat) : a ||| b = 0 ↔ a = 0 ∧ b = 0 := by
  constructor
  · intro h
    constructor
    · apply Nat.eq_of_testBit_eq
      intro i
      have hh := congrArg (fun x => x.testBit i) h
      simp only [Nat.testBit_or, Nat.zero_testBit, Bool.or_eq_false_iff] at hh
      simp [hh.1]
    · apply Nat.eq_of_testBit_eq
      intro i
      have hh := congrArg (fun x => x.testBit i) h
      simp only [Nat.testBit_or, Nat.zero_testBit, Bool.or_eq_false_iff] at hh
      simp [hh.2]
  · rintro ⟨rfl, rfl⟩; rfl

theorem foldl_or_eq_zero (l : List Nat) :
    ∀ acc : Nat, l.foldl (fun a d => a ||| d) acc = 0 ↔ acc = 0 ∧ ∀ x ∈ l, x = 0 := by
  induction l with
  | nil => intro acc; simp
  | cons x xs ih =>
    intro acc
    rw [List.foldl_cons, ih, nat_or_eq_zero]
    constructor
    · rintro ⟨⟨ha, hx⟩, hall⟩
      refine ⟨ha, ?_⟩
      intro y hy
      rcases List.mem_cons.mp hy with rfl | hmem
      · exact hx
      · exact hall y hmem
    · rintro ⟨ha, hall⟩
      exact ⟨⟨ha, hall x (List.mem_cons_self x xs)⟩,
        fun y hy => hall y (List.mem_cons_of_mem _ hy)⟩

theorem xorBytes_zero_iff : ∀ (a b : List Nat), a.length = b.length →
    ((∀ x ∈ xorBytes a b, x = 0) ↔ a = b) := by
  intro a
  induction a with
  | nil =>
    intro b h
    cases b with
    | nil => simp [xorBytes]
    | cons y ys => simp at h
  | cons x xs ih =>
    intro b h
    cases b with
    | nil => simp at h
    | cons y ys =>
      have hx : xorBytes (x :: xs) (y :: ys) = (x ^^^ y) :: xorBytes xs ys := rfl
      rw [hx]
      constructor
      · intro hall
        have hxy : x ^^^ y = 0 := hall _ (List.mem_cons_self _ _)
        have heq : xs = ys := (ih ys (by simpa using h)).mp
          (fun z hz => hall z (List.mem_cons_of_mem _ hz))
        rw [Nat.xor_eq_zero] at hxy
        rw [hxy, heq]
      · intro he
        injection he with h1 h2
        subst h1
        subst h2
        intro z hz
        rcases List.mem_cons.mp hz with rfl | hz2
        · exact Nat.xor_self x
        · exact ((ih xs rfl).mpr rfl) z hz2

theorem timingSafeEqual_eq (a b : List Nat) (h : a.length = b.length) :
    timingSafeEqual a b = true ↔ a = b := by
  simp only [timingSafeEqual, beq_iff_eq]
  rw [foldl_or_eq_zero]
  simp only [true_and]
  exact xorBytes_zero_iff a b h

/-- C7: `verify(password, salt, expectedVerifier)` returns true exactly
when the recomputed verifier — PBKDF2-HMAC-SHA512 of (password, salt) with
100000 iterations and a 64-byte digest — equals the stored verifier, and
the comparison is a constant-time byte comparison: on equal lengths every
byte position is examined (the XOR/OR accumulation inspects
`min |a| |b|` positions whatever the byte values are), never a
short-circuiting equality check. -/
theorem claim7_verify_constant_time :
    (∀ password salt hash : String,
      verifyPassword password salt hash = true
        ↔ pbkdf2Sha512 (utf8Encode password) (utf8Encode salt) 100000 64 = hexToBytes hash)
    ∧ (∀ a b : List Nat, a.length = b.length → (timingSafeEqual a b = true ↔ a = b))
    ∧ (∀ a b : List Nat, timingSafeEqualSteps a b = min a.length b.length) := by
  refine ⟨?_, timingSafeEqual_eq, ?_⟩
  · intro password salt hash
    simp only [verifyPassword]
    by_cases h : (pbkdf2Sha512 (utf8Encode password) (utf8Encode salt) 100000 64).length
        = (hexToBytes hash).length
    · rw [if_pos h]
      exact timingSafeEqual_eq _ _ h
    · rw [if_neg h]
      constructor
      · intro hf; exact absurd hf (by simp)
      · intro he; exact absurd (congrArg List.length he) h
  · intro a b
    exact xorBytes_length a b

/-- C5 (code bug): the claim's generic-error discipline is the spec's
explicit intent, but the code violates it at the twelve shape-valid
`Object.prototype` property names — authenticating the unregistered
username `"toString"` takes the found-user branch on the inherited
property and crashes on the `undefined` salt instead of returning the
generic `invalidCredentials` value. Away from those twelve names the
claimed behaviour holds exactly: absent username and wrong password both
return the very same `invalidCredentials` value, and success returns the
user's encryption salt. -/
theorem claim5_prototype_username_crash :
    validUsernameShape "toString" = true
    ∧ ([] : UsersDb).lookup "toString" = none
    ∧ authenticateUser "toString" "password123" (some []) = AuthOutcome.crash
    ∧ authenticateUser "toString" "password123" (some [])
        ≠ AuthOutcome.result invalidCredentials
    ∧ (∀ (username password : String) (db : UsersDb),
        db.lookup username = none → username ∉ protoKeys →
        authenticateUser username password (some db) = AuthOutcome.result invalidCredentials)
    ∧ (∀ (username password : String) (db : UsersDb) (user : UserRecord),
        db.lookup username = some user →
        verifyPassword password user.salt user.hash = false →
        authenticateUser username password (some db) = AuthOutcome.result invalidCredentials)
    ∧ (∀ (username password : String) (db : UsersDb) (user : UserRecord),
        db.lookup username = some user →
        verifyPassword password user.salt user.hash = true →
        authenticateUser username password (some db) = AuthOutcome.result
          { success := true, error := none, encryptionSalt := some user.encryptionSalt }) := by
  refine ⟨by decide, rfl, by decide, by decide, ?_, ?_, ?_⟩
  · intro u p db h hmem
    simp [authenticateUser, jsGet, h, hmem]
  · intro u p db user h hv
    simp [authenticateUser, jsGet, h, hv]
  · intro u p db user h hv
    simp [authenticateUser, jsGet, h, hv]

/-- C4 counterexample: `registerUser` itself performs no username-shape
validation — registering the 2-character username `"ab"` (rejected by the
spec's 3–20-character rule) into an empty store succeeds. -/
theorem claim4_counterexample :
    (registerUser "ab" "password123" (some []) (List.replicate 32 1) (List.replicate 32 2)
        "2024-01-01T00:00:00.000Z" true).1.success = true
    ∧ validUsernameShape "ab" = false := by
  constructor
  · rfl
  · decide

/-- C4 (amended): username shape validation (3–20 characters from
`[A-Za-z0-9_-]`) is performed by the CLI prompt `askUsername` before
`register` is called, while `register` itself performs no shape
validation; `register` fails when the store cannot be loaded, and checks
uniqueness by the JavaScript property read `usersDb[username]`, which
reports `UsernameTaken` both for usernames registered in the store
(case-sensitive exact match) and for the twelve shape-valid
`Object.prototype`-inherited property names (`toString`, `constructor`,
`hasOwnProperty`, …), which can never be registered; otherwise it appends
a credential record carrying the two independently drawn 32-byte salts
(hex-encoded, so 64 characters) and the PBKDF2 verifier, persisting the
updated store re-encrypted under the fixed system key and reporting
failure without claiming success when persistence fails. -/
theorem claim4_register_behaviour :
    (∀ u : String, validUsernameShape u = true
        ↔ 3 ≤ u.length ∧ u.length ≤ 20 ∧ ∀ c ∈ u.toList, isUsernameChar c = true)
    ∧ (∀ (u p cr : String) (s1 s2 : List Nat) (w : Bool),
        registerUser u p none s1 s2 cr w
          = ({ success := false, error := some "Failed to load users database",
               encryptionSalt := none }, none))
    ∧ (∀ (u p cr : String) (db : UsersDb) (s1 s2 : List Nat) (w : Bool),
        (db.lookup u).isSome →
        registerUser u p (some db) s1 s2 cr w
          = ({ success := false, error := some "Username already exists",
               encryptionSalt := none }, none))
    ∧ (∀ (u p cr : String) (db : UsersDb) (s1 s2 : List Nat) (w : Bool),
        u ∈ protoKeys → db.lookup u = none →
        registerUser u p (some db) s1 s2 cr w
          = ({ success := false, error := some "Username already exists",
               encryptionSalt := none }, none))
    ∧ (∀ (u p cr : String) (db : UsersDb) (s1 s2 : List Nat),
        db.lookup u = none → u ∉ protoKeys →
        registerUser u p (some db) s1 s2 cr true
          = ({ success := true, error := none, encryptionSalt := none },
             some (db ++ [(u,
               { salt := bytesToHex s1,
                 hash := bytesToHex (pbkdf2Sha512 (utf8Encode p)
                   (utf8Encode (bytesToHex s1)) 100000 64),
                 encryptionSalt := bytesToHex s2, created := cr })])))
    ∧ (∀ (u p cr : String) (db : UsersDb) (s1 s2 : List Nat),
        db.lookup u = none → u ∉ protoKeys →
        (registerUser u p (some db) s1 s2 cr false).1
          = { success := false, error := some "Failed to save user", encryptionSalt := none })
    ∧ (∀ s : List Nat, s.length = 32 → (bytesToHex s).length = 64) := by
  refine ⟨?_, ?_, ?_, ?_, ?_, ?_, ?_⟩
  · intro u
    simp [validUsernameShape, List.all_eq_true, and_assoc]
  · intro u p cr s1 s2 w
    rfl
  · intro u p cr db s1 s2 w h
    cases hl : db.lookup u with
    | none => rw [hl] at h; exact absurd h (by simp)
    | some r => simp [registerUser, jsGet, hl]
  · intro u p cr db s1 s2 w hmem hl
    simp [registerUser, jsGet, hl, hmem]
  · intro u p cr db s1 s2 hl hmem
    simp [registerUser, jsGet, hashPassword, hl, hmem]
  · intro u p cr db s1 s2 hl hmem
    simp [registerUser, jsGet, hashPassword, hl, hmem]
  · intro s h
    rw [bytesToHex_length, h]

theorem flatten_length_16 (ls : List (List Nat)) (h : ∀ x ∈ ls, x.length = 16) :
    ls.flatten.length = 16 * ls.length := by
  induction ls with
  | nil => simp
  | cons x xs ih =>
    simp only [List.flatten_cons, List.length_append, List.length_cons]
    rw [h x (List.mem_cons_self x xs), ih (fun y hy => h y (List.mem_cons_of_mem _ hy))]
    ring

theorem keyStream_length (rks : List B16) (j0 : List Nat) (n : Nat) :
    (keyStream rks j0 n).length = 16 * n := by
  have h := flatten_length_16
    ((List.range n).map fun i => aesEncryptBytes rks (ctrBlock j0 (i + 1)))
    (by
      intro x hx
      rw [List.mem_map] at hx
      obtain ⟨i, _, rfl⟩ := hx
      exact aesEncryptBytes_length _ _)
  simpa [keyStream] using h

theorem le_keyStream_bound (L : Nat) : L ≤ 16 * ((L + 15) / 16) := by
  have h := Nat.div_add_mod (L + 15) 16
  have h2 : (L + 15) % 16 < 16 := Nat.mod_lt (L + 15) (by norm_num)
  omega

theorem xorBytes_cancel : ∀ (a b : List Nat), a.length ≤ b.length →
    xorBytes (xorBytes a b) b = a := by
  intro a
  induction a with
  | nil => intro b _; rfl
  | cons x xs ih =>
    intro b h
    cases b with
    | nil => simp at h
    | cons y ys =>
      have hx : xorBytes (x :: xs) (y :: ys) = (x ^^^ y) :: xorBytes xs ys := rfl
      have hx2 : xorBytes ((x ^^^ y) :: xorBytes xs ys) (y :: ys)
          = ((x ^^^ y) ^^^ y) :: xorBytes (xorBytes xs ys) ys := rfl
      rw [hx, hx2, Nat.xor_cancel_right, ih ys (by simpa using h)]

theorem gcmTag_length (rks : List B16) (h : Nat) (j0 ct : List Nat) :
    (gcmTag rks h j0 ct).length = 16 := by
  simp [gcmTag, xorBytes_length, toBytesBE_length, aesEncryptBytes_length]

theorem gcm_roundtrip (rks : List B16) (j0 pt : List Nat) :
    gcmCtr rks j0 (gcmCtr rks j0 pt) = pt := by
  have hlen : (xorBytes pt (keyStream rks j0 ((pt.length + 15) / 16))).length = pt.length := by
    rw [xorBytes_length, keyStream_length]
    have hb := le_keyStream_bound pt.length
    omega
  simp only [gcmCtr, hlen]
  exact xorBytes_cancel pt _ (by rw [keyStream_length]; exact le_keyStream_bound pt.length)

attribute [local irreducible] roundKeys aesEncryptBytes gf128Mul ghash in
/-- C2: for every plaintext byte string and every valid 32-byte key (and
every fresh 16-byte IV drawn by `encrypt`), decrypting the envelope
produced by `encrypt` with the same key returns the original plaintext:
`decrypt(encrypt(plaintext, key), key) = some plaintext`. -/
theorem claim2_envelope_roundtrip (plaintext key iv : List Nat)
    (hkey : key.length = 32) (hiv : iv.length = 16) :
    decrypt (encrypt plaintext key iv).iv (encrypt plaintext key iv).authTag
      (encrypt plaintext key iv).encrypted key = some plaintext := by
  have hivne : iv ≠ [] := by
    intro hnil
    rw [hnil] at hiv
    exact absurd hiv (by norm_num)
  simp only [encrypt, decrypt]
  rw [if_pos ⟨hkey, hivne, gcmTag_length _ _ _ _⟩]
  simp only [if_true]
  exact congrArg some (gcm_roundtrip _ _ _)

/-- C6: `RecordStore` load distinguishes absent from corrupt — for every
key, an absent store file loads as the empty registry, while a present
file whose envelope is structurally invalid (unparsable, or missing /
falsy / non-string `iv`, `authTag` or `data` fields) or whose envelope
fails to decrypt (wrong key or corrupted data) loads as the distinct hard
failure `none`, never as an empty registry. -/
theorem claim6_load_absent_vs_corrupt (key : List Nat) :
    loadSouls StoreFile.absent key = some emptyRegistryBytes
    ∧ loadSouls StoreFile.unparsable key = none
    ∧ (∀ b : RawBundle, bundleValid b = false → loadSouls (StoreFile.bundle b) key = none)
    ∧ (∀ (b : RawBundle) (iv tag data : String),
        strField b.iv = some iv → strField b.authTag = some tag → strField b.data = some data →
        decrypt (hexToBytes iv) (hexToBytes tag) (hexToBytes data) key = none →
        loadSouls (StoreFile.bundle b) key = none)
    ∧ (none : Option (List Nat)) ≠ some emptyRegistryBytes
    ∧ loadUsers StoreFile.absent = some emptyRegistryBytes
    ∧ (∀ b : RawBundle, bundleValid b = false → loadUsers (StoreFile.bundle b) = none) := by
  refine ⟨rfl, rfl, ?_, ?_, by simp, rfl, ?_⟩
  · intro b hb
    cases hiv : strField b.iv <;> cases htag : strField b.authTag <;>
      cases hdata : strField b.data <;>
      simp_all [loadSouls, bundleValid]
  · intro b iv tag data hiv htag hdata hdec
    simp [loadSouls, hiv, htag, hdata, hdec]
  · intro b hb
    cases hiv : strField b.iv <;> cases htag : strField b.authTag <;>
      cases hdata : strField b.data <;>
      simp_all [loadUsers, loadSouls, bundleValid]

/-! ### Partial results towards C3 (tamper detection)

The fail-closed shape of `decrypt` (an `Option`, never an exception), the
verify-tag-before-release property, rejection of every single-bit flip of
the `authTag`, and the guarantee that a flipped ciphertext can never
decrypt back to the original plaintext are proved below. The remaining
conjunct of C3 — that every single-bit flip of the ciphertext makes
`decrypt` return `none` for every key — is equivalent over this embedding
to facts about GF(2^128) together with the nonexistence of an AES-256 key
whose hash subkey `E(K, 0^128)` is zero, which cannot be settled here. -/

attribute [local irreducible] roundKeys aesEncryptBytes gf128Mul ghash in
theorem decrypt_tag_verified (iv authTag encrypted key pt : List Nat)
    (h : decrypt iv authTag encrypted key = some pt) :
    gcmTag (roundKeys key) (gcmHashKey key) (gcmJ0 (gcmHashKey key) iv) encrypted = authTag := by
  simp only [decrypt] at h
  by_cases hg : key.length = 32 ∧ iv ≠ [] ∧ authTag.length = 16
  · rw [if_pos hg] at h
    by_cases ht : gcmTag (roundKeys key) (gcmHashKey key) (gcmJ0 (gcmHashKey key) iv) encrypted
        = authTag
    · exact ht
    · rw [if_neg ht] at h
      exact absurd h (by simp)
  · rw [if_neg hg] at h
    exact absurd h (by simp)

attribute [local irreducible] roundKeys aesEncryptBytes gf128Mul ghash in
theorem decrypt_some_eq (iv authTag encrypted key pt : List Nat)
    (h : decrypt iv authTag encrypted key = some pt) :
    pt = gcmCtr (roundKeys key) (gcmJ0 (gcmHashKey key) iv) encrypted := by
  simp only [decrypt] at h
  by_cases hg : key.length = 32 ∧ iv ≠ [] ∧ authTag.length = 16
  · rw [if_pos hg] at h
    by_cases ht : gcmTag (roundKeys key) (gcmHashKey key) (gcmJ0 (gcmHashKey key) iv) encrypted
        = authTag
    · rw [if_pos ht] at h
      exact (Option.some_inj.mp h).symm
    · rw [if_neg ht] at h
      exact absurd h (by simp)
  · rw [if_neg hg] at h
    exact absurd h (by simp)

theorem flipBit_length (l : List Nat) (i : Nat) : (flipBit l i).length = l.length := by
  simp [flipBit]

theorem one_shiftLeft_pos (k : Nat) : 0 < 1 <<< k := by
  rw [Nat.shiftLeft_eq]
  positivity

theorem flipBit_getD_self (l : List Nat) (i : Nat) (h : i / 8 < l.length) :
    (flipBit l i).getD (i / 8) 0 = l.getD (i / 8) 0 ^^^ (1 <<< (i % 8)) := by
  rw [List.getD_eq_getElem _ _ (by rw [flipBit_length]; exact h)]
  simp only [flipBit]
  exact List.getElem_set_self ..

theorem flipBit_ne (l : List Nat) (i : Nat) (h : i / 8 < l.length) : flipBit l i ≠ l := by
  intro he
  have hg := congrArg (fun x => x.getD (i / 8) 0) he
  simp only at hg
  rw [flipBit_getD_self l i h] at hg
  have hm : (1 <<< (i % 8)) = 0 := by
    nth_rewrite 2 [← Nat.xor_zero (l.getD (i / 8) 0)] at hg
    exact Nat.xor_right_inj.mp hg
  exact absurd hm (one_shiftLeft_pos _).ne'

attribute [local irreducible] roundKeys aesEncryptBytes gf128Mul ghash in
theorem decrypt_rejects_flipped_tag (plaintext key iv : List Nat) (i : Nat)
    (hkey : key.length = 32) (hiv : iv.length = 16) (hi : i < 128) :
    decrypt iv (flipBit (encrypt plaintext key iv).authTag i)
      (encrypt plaintext key iv).encrypted key = none := by
  have hivne : iv ≠ [] := by
    intro hnil
    rw [hnil] at hiv
    exact absurd hiv (by norm_num)
  have htag : (encrypt plaintext key iv).authTag
      = gcmTag (roundKeys key) (gcmHashKey key) (gcmJ0 (gcmHashKey key) iv)
          (gcmCtr (roundKeys key) (gcmJ0 (gcmHashKey key) iv) plaintext) := rfl
  have henc : (encrypt plaintext key iv).encrypted
      = gcmCtr (roundKeys key) (gcmJ0 (gcmHashKey key) iv) plaintext := rfl
  have htlen : (encrypt plaintext key iv).authTag.length = 16 := by
    rw [htag]
    exact gcmTag_length _ _ _ _
  have hne : gcmTag (roundKeys key) (gcmHashKey key) (gcmJ0 (gcmHashKey key) iv)
      (encrypt plaintext key iv).encrypted ≠ flipBit (encrypt plaintext key iv).authTag i := by
    rw [henc, ← htag]
    intro habs
    exact flipBit_ne _ i (by rw [htlen]; omega) habs.symm
  simp only [decrypt]
  rw [if_pos ⟨hkey, hivne, by rw [flipBit_length, htlen]⟩, if_neg hne]

theorem xorBytes_getD (a b : List Nat) (k : Nat) (ha : k < a.length) (hb : k < b.length) :
    (xorBytes a b).getD k 0 = a.getD k 0 ^^^ b.getD k 0 := by
  have hk : k < (xorBytes a b).length := by
    rw [xorBytes_length]
    omega
  rw [List.getD_eq_getElem _ _ hk, List.getD_eq_getElem _ _ ha, List.getD_eq_getElem _ _ hb]
  exact List.getElem_zipWith ..

attribute [local irreducible] roundKeys aesEncryptBytes gf128Mul ghash in
theorem decrypt_flipped_ciphertext_not_plaintext (plaintext key iv : List Nat) (i : Nat)
    (hi : i < 8 * plaintext.length) :
    decrypt iv (encrypt plaintext key iv).authTag
      (flipBit (encrypt plaintext key iv).encrypted i) key ≠ some plaintext := by
  intro habs
  have henc : (encrypt plaintext key iv).encrypted
      = gcmCtr (roundKeys key) (gcmJ0 (gcmHashKey key) iv) plaintext := rfl
  have hres := decrypt_some_eq _ _ _ _ _ habs
  rw [henc] at hres
  have hkslen : plaintext.length
      ≤ (keyStream (roundKeys key) (gcmJ0 (gcmHashKey key) iv)
          ((plaintext.length + 15) / 16)).length := by
    rw [keyStream_length]
    exact le_keyStream_bound _
  have hctlen : (gcmCtr (roundKeys key) (gcmJ0 (gcmHashKey key) iv) plaintext).length
      = plaintext.length := by
    rw [gcmCtr, xorBytes_length, keyStream_length]
    have hb := le_keyStream_bound plaintext.length
    omega
  have hflen : (flipBit (gcmCtr (roundKeys key) (gcmJ0 (gcmHashKey key) iv) plaintext) i).length
      = plaintext.length := by
    rw [flipBit_length, hctlen]
  rw [gcmCtr, hflen] at hres
  have hk : i / 8 < plaintext.length := by omega
  have e1 := congrArg (fun x => x.getD (i / 8) 0) hres
  simp only at e1
  rw [xorBytes_getD _ _ (i / 8) (by rw [hflen]; exact hk) (by omega)] at e1
  rw [flipBit_getD_self _ i (by rw [hctlen]; exact hk)] at e1
  have hctget : (gcmCtr (roundKeys key) (gcmJ0 (gcmHashKey key) iv) plaintext).getD (i / 8) 0
      = plaintext.getD (i / 8) 0
        ^^^ (keyStream (roundKeys key) (gcmJ0 (gcmHashKey key) iv)
          ((plaintext.length + 15) / 16)).getD (i / 8) 0 := by
    rw [gcmCtr]
    exact xorBytes_getD _ _ (i / 8) hk (by omega)
  rw [hctget] at e1
  have h3 := congrArg
    (fun x => x ^^^ (keyStream (roundKeys key) (gcmJ0 (gcmHashKey key) iv)
      ((plaintext.length + 15) / 16)).getD (i / 8) 0) e1
  simp only at h3
  rw [Nat.xor_cancel_right] at h3
  have hm : (1 <<< (i % 8)) = 0 := by
    nth_rewrite 1 [← Nat.xor_zero (plaintext.getD (i / 8) 0
      ^^^ (keyStream (roundKeys key) (gcmJ0 (gcmHashKey key) iv)
        ((plaintext.length + 15) / 16)).getD (i / 8) 0)] at h3
    exact (Nat.xor_right_inj.mp h3).symm
  exact absurd hm (one_shiftLeft_pos _).ne'

/-! ### Witnesses: the claim theorems applied at concrete inputs -/

/-- Witness for C2 at a concrete plaintext, key and IV. -/
theorem claim2_envelope_roundtrip_witness :
    decrypt (encrypt [1, 2, 3] (List.range 32) (List.replicate 16 7)).iv
      (encrypt [1, 2, 3] (List.range 32) (List.replicate 16 7)).authTag
      (encrypt [1, 2, 3] (List.range 32) (List.replicate 16 7)).encrypted
      (List.range 32) = some [1, 2, 3] :=
  claim2_envelope_roundtrip [1, 2, 3] (List.range 32) (List.replicate 16 7)
    (by simp) (by simp)

/-- Witness for C4 at concrete inputs: registering a fresh username
succeeds, registering an existing username fails with the duplicate
error, registering the prototype-inherited name `"toString"` on an empty
store also fails with the duplicate error, and a well-formed username
passes the CLI shape check. -/
theorem claim4_register_behaviour_witness :
    (registerUser "bob" "pw12345" (some sampleDb) (List.replicate 32 1) (List.replicate 32 2)
        "t1" true).1.success = true
    ∧ (registerUser "alice" "pw12345" (some sampleDb) (List.replicate 32 1) (List.replicate 32 2)
        "t1" true).1.error = some "Username already exists"
    ∧ (registerUser "toString" "pw12345" (some []) (List.replicate 32 1) (List.replicate 32 2)
        "t1" true).1.error = some "Username already exists"
    ∧ validUsernameShape "bob" = true
    ∧ (bytesToHex (List.replicate 32 1)).length = 64 := by
  refine ⟨?_, ?_, ?_, ?_, ?_⟩
  · rw [claim4_register_behaviour.2.2.2.2.1 "bob" "pw12345" "t1" sampleDb
      (List.replicate 32 1) (List.replicate 32 2) (by decide) (by decide)]
  · rw [claim4_register_behaviour.2.2.1 "alice" "pw12345" "t1" sampleDb
      (List.replicate 32 1) (List.replicate 32 2) true (by decide)]
  · rw [claim4_register_behaviour.2.2.2.1 "toString" "pw12345" "t1" []
      (List.replicate 32 1) (List.replicate 32 2) true (by decide) rfl]
  · exact (claim4_register_behaviour.1 "bob").mpr (by decide)
  · exact claim4_register_behaviour.2.2.2.2.2.2 (List.replicate 32 1) (by simp)

theorem verify_sampleRecord_false :
    verifyPassword "wrongpass" "73616c74" "00" = false := by
  have hlen : (pbkdf2Sha512 (utf8Encode "wrongpass") (utf8Encode "73616c74") 100000 64).length
      = 64 := pbkdf2Sha512_length_64 _ _ _
  have hst : hexToBytes "00" = [0] := by decide
  simp [verifyPassword, hlen, hst]

/-- Witness for C5: authenticating a nonexistent (non-prototype) user and
authenticating an existing user with a wrong password yield the very same
`invalidCredentials` value. -/
theorem claim5_prototype_username_crash_witness :
    authenticateUser "bob" "wrongpass" (some sampleDb) = AuthOutcome.result invalidCredentials
    ∧ authenticateUser "alice" "wrongpass" (some sampleDb)
        = AuthOutcome.result invalidCredentials := by
  constructor
  · exact claim5_prototype_username_crash.2.2.2.2.1 "bob" "wrongpass" sampleDb
      (by decide) (by decide)
  · exact claim5_prototype_username_crash.2.2.2.2.2.1 "alice" "wrongpass" sampleDb sampleRecord
      (by decide) verify_sampleRecord_false

/-- Witness for C6 at concrete inputs: an absent file loads as the empty
registry, a bundle missing its `iv` field fails hard, and a structurally
valid bundle whose envelope is corrupted (truncated tag) fails hard. -/
theorem claim6_load_absent_vs_corrupt_witness :
    loadSouls StoreFile.absent (List.replicate 32 0) = some emptyRegistryBytes
    ∧ loadSouls (StoreFile.bundle
        { iv := none, authTag := some (JsonLite.jstr "aa"), data := some (JsonLite.jstr "bb") })
        (List.replicate 32 0) = none
    ∧ loadSouls (StoreFile.bundle
        { iv := some (JsonLite.jstr "00000000000000000000000000000000"),
          authTag := some (JsonLite.jstr "00"),
          data := some (JsonLite.jstr "ff") })
        (List.replicate 32 0) = none := by
  refine ⟨(claim6_load_absent_vs_corrupt (List.replicate 32 0)).1, ?_, ?_⟩
  · exact (claim6_load_absent_vs_corrupt (List.replicate 32 0)).2.2.1
      { iv := none, authTag := some (JsonLite.jstr "aa"), data := some (JsonLite.jstr "bb") }
      (by decide)
  · exact (claim6_load_absent_vs_corrupt (List.replicate 32 0)).2.2.2.1
      { iv := some (JsonLite.jstr "00000000000000000000000000000000"),
        authTag := some (JsonLite.jstr "00"), data := some (JsonLite.jstr "ff") }
      "00000000000000000000000000000000" "00" "ff" rfl rfl rfl (by decide)

/-- Witness for C7 at concrete inputs. -/
theorem claim7_verify_constant_time_witness :
    (verifyPassword "pw" "salt" "0a" = true
      ↔ pbkdf2Sha512 (utf8Encode "pw") (utf8Encode "salt") 100000 64 = hexToBytes "0a")
    ∧ (timingSafeEqual [1, 2] [1, 2] = true ↔ [1, 2] = ([1, 2] : List Nat))
    ∧ timingSafeEqualSteps [3, 4, 5] [6, 7, 8] = 3 := by
  refine ⟨claim7_verify_constant_time.1 "pw" "salt" "0a",
    claim7_verify_constant_time.2.1 [1, 2] [1, 2] rfl, ?_⟩
  have h := claim7_verify_constant_time.2.2 [3, 4, 5] [6, 7, 8]
  simpa using h

/-- Witness for C8: two appends to a fresh soul number its epochs 1, 2. -/
theorem claim8_sequence_numbers_witness :
    (runEpochs (createSoul "Self" (List.replicate 32 5) "t0")
        [("q1", "t1", sampleReading), ("q2", "t2", sampleReading)]).epochs.map Epoch.number
      = List.range' 1 2
    ∧ (newEpoch (createSoul "Self" (List.replicate 32 5) "t0") "q" "t"
        sampleReading).epochs.map Epoch.number = List.range' 1 (0 + 1) :=
  ⟨claim8_sequence_numbers.1 "Self" "t0" (List.replicate 32 5)
      [("q1", "t1", sampleReading), ("q2", "t2", sampleReading)],
   claim8_sequence_numbers.2.1 (createSoul "Self" (List.replicate 32 5) "t0") "q" "t"
      sampleReading 0 rfl⟩

/-- Witness for C9 at concrete inputs: with quantum mode off, or with a
throwing bridge, the consultation returns the deterministic reading. -/
theorem claim9_enhancement_additive_witness :
    consultQuantumOracle "q" "s" 1 false true true (some sampleReading)
      = generateDeterministicReading "q" "s" 1
    ∧ consultQuantumOracle "q" "s" 1 true true true none
      = generateDeterministicReading "q" "s" 1 :=
  ⟨claim9_enhancement_additive.2.2.1 "q" "s" 1 false true true (some sampleReading) rfl,
   claim9_enhancement_additive.2.2.2 "q" "s" 1 true true true⟩

/-- Witness for C10 at a concrete 32-byte seed. -/
theorem claim10_seed_hex_representation_witness :
    (createSoul "Self" (List.replicate 32 171) "t0").seed = bytesToHex (List.replicate 32 171)
    ∧ (createSoul "Self" (List.replicate 32 171) "t0").seed.length = 64
    ∧ lineageSeedHash (createSoul "Self" (List.replicate 32 171) "t0")
        = (bytesToHex (sha256 (utf8Encode (bytesToHex (List.replicate 32 171))))).take 8 := by
  have h := claim10_seed_hex_representation "Self" "t0" "q" 1 (List.replicate 32 171) (by simp)
  exact ⟨h.1, h.2.1, h.2.2.2.2.2⟩

end Oinio
